import Mathlib

/-!
Shallow embedding of the OHLCV caching and market-breadth subsystem of the
stock_dashboard repository, together with proofs about the claims of its
specification.

Sources embedded:
* `src/src/data/connectors/ohlcv_cache.py` (`OHLCVCacheManager`)
* `src/update_daily_ohlcv.py` (`DailyOHLCVUpdater`)
* `src/src/data/connectors/visualize_ohlcv.py` (`analyze_market_breadth`)
* `src/src/data/connectors/market_breadth_cache.py` (`MarketBreadthCache`)

Modelling conventions:
* Prices and volumes are rationals (pandas floats are modelled exactly).
* Calendar dates and timestamps are integers (days); string dates in the
  SQLite store compare lexicographically exactly as day numbers compare.
* SQLite tables are association lists whose upsert mirrors
  `INSERT OR REPLACE` on the table's unique key.
* A fetch from the external vendor, and the per-symbol load inside the
  breadth analyzer, are oracles of type `Except String _`: `.error`
  models the Python call raising an exception.
-/

namespace StockDashboard

/-- One OHLCV bar as fetched from a vendor: pandas DataFrame row with a date
index and open/high/low/close/volume columns. -/
structure OBar where
  date : Int
  openP : ℚ
  highP : ℚ
  lowP : ℚ
  closeP : ℚ
  volume : ℚ
  deriving DecidableEq, Repr

/-- A stored row of the `ohlcv_data` table (the non-key columns). -/
structure BarRow where
  openP : ℚ
  highP : ℚ
  lowP : ℚ
  closeP : ℚ
  volume : ℚ
  deriving DecidableEq, Repr

/-- A row of the `cache_metadata` table (the non-key columns). -/
structure MetaRow where
  last_update : Int
  start_date : Int
  end_date : Int
  record_count : Nat
  deriving DecidableEq, Repr

/-- Key of the `ohlcv_data` table: `UNIQUE(symbol, date, resolution)`. -/
abbrev DataKey := String × Int × String

/-- Key of the `cache_metadata` table: `PRIMARY KEY (symbol, resolution)`. -/
abbrev MetaKey := String × String

/-- The SQLite cache database: the two tables of `_init_database`. -/
structure Store where
  data : List (DataKey × BarRow)
  metadata : List (MetaKey × MetaRow)
  deriving DecidableEq, Repr

/-- `INSERT OR REPLACE` on an association list with a unique key. -/
def upsert {κ α : Type} [DecidableEq κ] (rows : List (κ × α)) (k : κ) (v : α) :
    List (κ × α) :=
  if rows.any (fun kv => kv.1 = k) then
    rows.map (fun kv => if kv.1 = k then (k, v) else kv)
  else
    rows ++ [(k, v)]

/-- Lookup in an association list (a `SELECT` by unique key). -/
def lookupRow {κ α : Type} [DecidableEq κ] (rows : List (κ × α)) (k : κ) :
    Option α :=
  (rows.find? (fun kv => kv.1 = k)).map Prod.snd

end StockDashboard

namespace StockDashboard

/-- Dates of a bar batch, in batch order (`df_copy['date']`). -/
def batchDates (df : List OBar) : List Int :=
  df.map OBar.date

/-- `df_copy['date'].min()` on a nonempty batch (0 is never reached: the
caller guards `df.empty`). -/
def minDate (df : List OBar) : Int :=
  match batchDates df with
  | [] => 0
  | d :: ds => ds.foldl min d

/-- `df_copy['date'].max()` on a nonempty batch. -/
def maxDate (df : List OBar) : Int :=
  match batchDates df with
  | [] => 0
  | d :: ds => ds.foldl max d

/-- `OHLCVCacheManager.save_ohlcv(symbol, df, resolution)` at time `now`
(`datetime.now()` of the call).

Mirrors `ohlcv_cache.py` lines 77-142: an empty DataFrame returns without
touching the store; otherwise every row is `INSERT OR REPLACE`d into
`ohlcv_data` keyed by `(symbol, date, resolution)`, and then the
`cache_metadata` row for `(symbol, resolution)` is replaced with
`(last_update = now, start_date = df.date.min(), end_date = df.date.max(),
record_count = len(df))`. -/
def save_ohlcv (now : Int) (symbol : String) (df : List OBar)
    (resolution : String) (store : Store) : Store :=
  if df = [] then store
  else
    let data := df.foldl
      (fun rows b =>
        upsert rows (symbol, b.date, resolution)
          ⟨b.openP, b.highP, b.lowP, b.closeP, b.volume⟩)
      store.data
    let metadata := upsert store.metadata (symbol, resolution)
      ⟨now, minDate df, maxDate df, df.length⟩
    ⟨data, metadata⟩

/-- Number of rows of `ohlcv_data` stored for `(symbol, resolution)`:
`SELECT COUNT(*) FROM ohlcv_data WHERE symbol = ? AND resolution = ?`. -/
def storedBarCount (store : Store) (symbol resolution : String) : Nat :=
  (store.data.filter
    (fun kv => kv.1.1 = symbol ∧ kv.1.2.2 = resolution)).length

/-- The `cache_metadata` row for `(symbol, resolution)`. -/
def metaFor (store : Store) (symbol resolution : String) : Option MetaRow :=
  lookupRow store.metadata (symbol, resolution)

/-- The stored bar at `(symbol, date, resolution)`, if any. -/
def barAt (store : Store) (symbol : String) (date : Int)
    (resolution : String) : Option BarRow :=
  lookupRow store.data (symbol, date, resolution)

/-- `OHLCVCacheManager.is_cache_valid(symbol, resolution, max_age_hours)`
at time `now`, with ages measured on the model's time axis: true iff a
metadata row exists and `now - last_update < max_age` (strict, as in the
source's `age.total_seconds() < max_age_hours * 3600`); false — not an
error — when no metadata row exists. -/
def is_cache_valid (now : Int) (store : Store) (symbol resolution : String)
    (max_age : Int) : Bool :=
  match metaFor store symbol resolution with
  | some m => decide (now - m.last_update < max_age)
  | none => false

/-- The empty cache database. -/
def emptyStore : Store := ⟨[], []⟩

/-- `DailyOHLCVUpdater.get_last_cached_date(ticker)`:
`SELECT MAX(date) FROM ohlcv_data WHERE symbol = ?` — note: every
resolution's rows are considered, and the result is `None` when the symbol
has no stored bars. -/
def get_last_cached_date (store : Store) (ticker : String) : Option Int :=
  match (store.data.filter (fun kv => kv.1.1 = ticker)).map
      (fun kv => kv.1.2.1) with
  | [] => none
  | d :: ds => some (ds.foldl max d)

/-- The request-window selection of `DailyOHLCVUpdater.update_ticker`
(update_daily_ohlcv.py lines 49-67), at day granularity: with a last cached
bar date `d`, skip when `(now - d).days <= 1`, else request
`[d - 5 days, now]`; with no cached bars request `[now - 365*5 days, now]`.
`none` means no fetch is performed ("Already up-to-date"). -/
def selectWindow (now : Int) (lastDate : Option Int) : Option (Int × Int) :=
  match lastDate with
  | some d => if now - d ≤ 1 then none else some (d - 5, now)
  | none => some (now - 365 * 5, now)

/-- `"rate limit" in str(e).lower()`: substring test on the error text. -/
def rateLimitErr (msg : String) : Bool :=
  (msg.toLower.toList.tails).any
    (fun t => List.isPrefixOf "rate limit".toList t)

/-- The body under `if not df.empty:` for one source inside `update_ticker`:
filter the fetched frame to bars strictly after the last cached date, save
the remainder through `save_ohlcv` (resolution defaults to `'1D'`).
`none` means the branch falls through to the final `return None, "Failed"`.
`reportNoNew` is true for the VnStock branch, which alone returns
`(0, "No new data")` for an empty post-filter frame. -/
def mergeFetched (now : Int) (lastDate : Option Int) (ticker source : String)
    (reportNoNew : Bool) (df : List OBar) (store : Store) :
    Option ((Option Nat × String) × Store) :=
  if df = [] then none
  else
    let dfNew := match lastDate with
      | some d => df.filter (fun b => decide (d < b.date))
      | none => df
    if dfNew = [] then
      if reportNoNew then some ((some 0, "No new data"), store) else none
    else
      some ((some dfNew.length, source), save_ohlcv now ticker dfNew "1D" store)

/-- `DailyOHLCVUpdater.update_ticker(ticker)` at time `now`.

`vnstock` and `tcbs` are the two vendor gateways, as oracles mapping a
requested `(start_date, end_date)` window to either a fetched bar list or a
raised exception's text (`.error`). Returns the `(records, source)` pair of
the Python function together with the resulting cache store. -/
def update_ticker (now : Int)
    (vnstock tcbs : Int → Int → Except String (List OBar))
    (store : Store) (ticker : String) : (Option Nat × String) × Store :=
  let lastDate := get_last_cached_date store ticker
  match selectWindow now lastDate with
  | none => ((none, "Already up-to-date"), store)
  | some (s, e) =>
    match vnstock s e with
    | .ok df =>
      match mergeFetched now lastDate ticker "VnStock" true df store with
      | some r => r
      | none => ((none, "Failed"), store)
    | .error msg =>
      if rateLimitErr msg then
        match tcbs s e with
        | .ok df =>
          match mergeFetched now lastDate ticker "TCBS" false df store with
          | some r => r
          | none => ((none, "Failed"), store)
        | .error _ => ((none, "Failed"), store)
      else ((none, "Failed"), store)

/-- A row of the per-symbol DataFrame consumed by the breadth analyzer:
only the `close` and `volume` columns are read. -/
structure Bar where
  closeP : ℚ
  volume : ℚ
  deriving DecidableEq, Repr

/-- Last value of `close_series.rolling(k).mean()`: the simple mean of the
trailing `k` closes (its value when at least `k` rows exist). -/
def smaLast (k : Nat) (closes : List ℚ) : ℚ :=
  (closes.drop (closes.length - k)).sum / k

/-- One step of pandas `ewm(span, adjust=False)`:
`e_t = alpha * x_t + (1 - alpha) * e_(t-1)`. -/
def emaStep (alpha : ℚ) (e x : ℚ) : ℚ :=
  alpha * x + (1 - alpha) * e

/-- Last value of `close_series.ewm(span=s, adjust=False).mean()`:
seeded with the first close and folded with `alpha = 2 / (s + 1)`. -/
def emaLast (s : Nat) (closes : List ℚ) : ℚ :=
  match closes with
  | [] => 0
  | c :: rest => rest.foldl (emaStep (2 / ((s : ℚ) + 1))) c

/-- `ma_k = close_series.rolling(k).mean().iloc[-1] if data_len >= k else
pd.NA` — `none` models `pd.NA`. -/
def maOpt (k : Nat) (closes : List ℚ) : Option ℚ :=
  if k ≤ closes.length then some (smaLast k closes) else none

/-- `ema_s = close_series.ewm(span=s, adjust=False).mean().iloc[-1] if
data_len >= s else pd.NA`. -/
def emaOpt (s : Nat) (closes : List ℚ) : Option ℚ :=
  if s ≤ closes.length then some (emaLast s closes) else none

/-- `not pd.isna(ma) and close > ma`. -/
def isAbove (close : ℚ) : Option ℚ → Bool
  | some m => decide (m < close)
  | none => false

/-- `not pd.isna(ema9) and not pd.isna(ema21) and ema9 > ema21`. -/
def emaBullish : Option ℚ → Option ℚ → Bool
  | some e9, some e21 => decide (e21 < e9)
  | _, _ => false

/-- The four per-symbol booleans of the result dict built by
`analyze_single_symbol`. -/
structure IndicatorFlags where
  above_ma20 : Bool
  above_ma50 : Bool
  above_ma200 : Bool
  ema9_above_ema21 : Bool
  deriving DecidableEq, Repr

/-- The four shapes of value `analyze_single_symbol` can hand back to the
aggregation loop: `None` (insufficient history), the `filtered_out` dict,
the `error` dict, or a full result dict. -/
inductive SymbolResult where
  | excluded
  | filteredOut
  | failed (msg : String)
  | analyzed (flags : IndicatorFlags)
  deriving DecidableEq, Repr

/-- `analyze_single_symbol(symbol, min_val)` of
`OHLCVVisualizer.analyze_market_breadth` (visualize_ohlcv.py lines
352-395). The data load `self.updater.get_ticker_data(symbol)` and any
exception raised during the symbol's computation are modelled by the
`Except` input: `.error` is a raised exception, caught by the function's
`try`/`except` and turned into an error dict. -/
def analyze_single_symbol (input : Except String (List Bar)) (min_val : ℚ) :
    SymbolResult :=
  match input with
  | .error msg => .failed msg
  | .ok df =>
    if df.length < 20 then .excluded
    else
      let latest := df.getLastD ⟨0, 0⟩
      let close := latest.closeP
      let volume := latest.volume
      let trading_value := close * volume
      if trading_value < min_val then .filteredOut
      else
        let closes := df.map Bar.closeP
        .analyzed
          { above_ma20 := isAbove close (maOpt 20 closes)
            above_ma50 := isAbove close (maOpt 50 closes)
            above_ma200 := isAbove close (maOpt 200 closes)
            ema9_above_ema21 :=
              emaBullish (emaOpt 9 closes) (emaOpt 21 closes) }

/-- The `stats` dict accumulated by `analyze_market_breadth`, after the
final percentage step; `none` percentage fields model keys absent when
`total == 0`. -/
structure BreadthStats where
  above_ma20 : Nat
  above_ma50 : Nat
  above_ma200 : Nat
  ema9_above_ema21 : Nat
  total : Nat
  analyzed : List String
  failed : List String
  filtered_out : Nat
  low_value_stocks : List String
  pct_above_ma20 : Option ℚ
  pct_above_ma50 : Option ℚ
  pct_above_ma200 : Option ℚ
  pct_ema_bullish : Option ℚ
  deriving DecidableEq, Repr

/-- The initial `stats` dict (counters 0, lists empty, no percentages). -/
def initStats : BreadthStats :=
  ⟨0, 0, 0, 0, 0, [], [], 0, [], none, none, none, none⟩

/-- Python `int += bool`. -/
def btoN (b : Bool) : Nat := if b then 1 else 0

/-- The body of the `as_completed` result loop for one completed symbol:
`None` is skipped, a `filtered_out` dict bumps the filter counter and the
low-value list, an `error` dict appends to `failed`, and a result dict adds
its booleans to the counters and the symbol to `analyzed`. -/
def consumeResult (st : BreadthStats) (symbol : String) (r : SymbolResult) :
    BreadthStats :=
  match r with
  | .excluded => st
  | .filteredOut =>
    { st with filtered_out := st.filtered_out + 1,
              low_value_stocks := st.low_value_stocks ++ [symbol] }
  | .failed _ => { st with failed := st.failed ++ [symbol] }
  | .analyzed f =>
    { st with above_ma20 := st.above_ma20 + btoN f.above_ma20,
              above_ma50 := st.above_ma50 + btoN f.above_ma50,
              above_ma200 := st.above_ma200 + btoN f.above_ma200,
              ema9_above_ema21 := st.ema9_above_ema21 + btoN f.ema9_above_ema21,
              total := st.total + 1,
              analyzed := st.analyzed ++ [symbol] }

/-- The percentage step at the end of `analyze_market_breadth`: when
`total > 0`, each percentage is `count / total * 100`. -/
def addPercentages (st : BreadthStats) : BreadthStats :=
  if 0 < st.total then
    { st with
      pct_above_ma20 := some ((st.above_ma20 : ℚ) / st.total * 100)
      pct_above_ma50 := some ((st.above_ma50 : ℚ) / st.total * 100)
      pct_above_ma200 := some ((st.above_ma200 : ℚ) / st.total * 100)
      pct_ema_bullish := some ((st.ema9_above_ema21 : ℚ) / st.total * 100) }
  else st

/-- `OHLCVVisualizer.analyze_market_breadth(symbols, min_trading_value)`.

`inputs` pairs each submitted symbol with its per-symbol data oracle; the
list order models the order in which `as_completed` yields the workers'
results (any interleaving of the thread pool — claim C8 proves the
aggregate does not depend on it). -/
def analyze_market_breadth
    (inputs : List (String × Except String (List Bar))) (min_val : ℚ) :
    BreadthStats :=
  addPercentages
    (inputs.foldl
      (fun st p => consumeResult st p.1 (analyze_single_symbol p.2 min_val))
      initStats)

/-- The single JSON file `market_breadth_cache.json` written by
`MarketBreadthCache`: a timestamp plus the stats blob (the blob's shape is
irrelevant to the cache, so it is a type parameter). -/
structure BreadthCacheFile (α : Type) where
  timestamp : Int
  stats : α
  deriving DecidableEq, Repr

/-- `MarketBreadthCache.save_stats(stats)` at time `now`: writes
`{'timestamp': now, 'stats': stats}` to the single cache file, overwriting
whatever was there (`_prior`). -/
def save_stats {α : Type} (now : Int) (stats : α)
    (_prior : Option (BreadthCacheFile α)) : Option (BreadthCacheFile α) :=
  some ⟨now, stats⟩

/-- `MarketBreadthCache.get_cached_stats(max_age_hours)` at time `now`,
with ages on the model's time axis: `None` when no cache file exists or
when `now - cached_time > max_age` (the source's
`datetime.now() - cached_time > timedelta(hours=max_age_hours)`), else the
stored stats. -/
def get_cached_stats {α : Type} (now max_age : Int)
    (file : Option (BreadthCacheFile α)) : Option α :=
  match file with
  | none => none
  | some c => if max_age < now - c.timestamp then none else some c.stats

/-! ### Outcome classifiers and counting functions used by the theorems -/

/-- The symbol result computed for one submitted `(symbol, data)` pair. -/
def classify (min_val : ℚ) (p : String × Except String (List Bar)) :
    SymbolResult :=
  analyze_single_symbol p.2 min_val

/-- Did the symbol end analyzed? -/
def isAnalyzedR : SymbolResult → Bool
  | .analyzed _ => true
  | _ => false

/-- Did the symbol end excluded (insufficient history)? -/
def isExcludedR : SymbolResult → Bool
  | .excluded => true
  | _ => false

/-- Did the symbol end filtered out (liquidity filter)? -/
def isFilteredR : SymbolResult → Bool
  | .filteredOut => true
  | _ => false

/-- Did the symbol end failed? -/
def isFailedR : SymbolResult → Bool
  | .failed _ => true
  | _ => false

/-- Contribution of one symbol result to one of the four boolean counters,
selected by `pick`. -/
def contrib (pick : IndicatorFlags → Bool) : SymbolResult → Nat
  | .analyzed f => btoN (pick f)
  | _ => 0

/-- Symbols of `inputs` whose result satisfies `q`, in submission order. -/
def symbolsWhere (q : SymbolResult → Bool) (min_val : ℚ)
    (inputs : List (String × Except String (List Bar))) : List String :=
  inputs.filterMap
    (fun p => if q (classify min_val p) then some p.1 else none)

/-- Number of symbols of `inputs` whose result satisfies `q`. -/
def countWhere (q : SymbolResult → Bool) (min_val : ℚ)
    (inputs : List (String × Except String (List Bar))) : Nat :=
  inputs.countP (fun p => q (classify min_val p))

/-- Sum over `inputs` of the boolean counter selected by `pick`. -/
def counterSum (pick : IndicatorFlags → Bool) (min_val : ℚ)
    (inputs : List (String × Except String (List Bar))) : Nat :=
  (inputs.map (fun p => contrib pick (classify min_val p))).sum

/-- The result-consumption loop of `analyze_market_breadth`, from an
arbitrary accumulator (used to reason about the fold by induction). -/
def runFold (min_val : ℚ) (init : BreadthStats)
    (inputs : List (String × Except String (List Bar))) : BreadthStats :=
  inputs.foldl (fun st p => consumeResult st p.1 (classify min_val p)) init

lemma analyze_market_breadth_eq_runFold
    (inputs : List (String × Except String (List Bar))) (m : ℚ) :
    analyze_market_breadth inputs m =
      addPercentages (runFold m initStats inputs) := rfl

lemma runFold_cons (m : ℚ) (init : BreadthStats)
    (p : String × Except String (List Bar)) (l : List _) :
    runFold m init (p :: l) =
      runFold m (consumeResult init p.1 (classify m p)) l := rfl

lemma runFold_total (m : ℚ) (l : List (String × Except String (List Bar))) :
    ∀ init, (runFold m init l).total =
      init.total + countWhere isAnalyzedR m l := by
  induction l with
  | nil => intro init; simp [runFold, countWhere]
  | cons p l ih =>
    intro init
    rw [runFold_cons, ih]
    cases h : classify m p <;>
      simp [consumeResult, countWhere, isAnalyzedR, h, List.countP_cons] <;>
      omega

lemma runFold_filtered (m : ℚ)
    (l : List (String × Except String (List Bar))) :
    ∀ init, (runFold m init l).filtered_out =
      init.filtered_out + countWhere isFilteredR m l := by
  induction l with
  | nil => intro init; simp [runFold, countWhere]
  | cons p l ih =>
    intro init
    rw [runFold_cons, ih]
    cases h : classify m p <;>
      simp [consumeResult, countWhere, isFilteredR, h, List.countP_cons] <;>
      omega

lemma runFold_failed (m : ℚ)
    (l : List (String × Except String (List Bar))) :
    ∀ init, (runFold m init l).failed =
      init.failed ++ symbolsWhere isFailedR m l := by
  induction l with
  | nil => intro init; simp [runFold, symbolsWhere]
  | cons p l ih =>
    intro init
    rw [runFold_cons, ih]
    cases h : classify m p <;>
      simp [consumeResult, symbolsWhere, isFailedR, h, List.filterMap_cons]

lemma runFold_analyzed (m : ℚ)
    (l : List (String × Except String (List Bar))) :
    ∀ init, (runFold m init l).analyzed =
      init.analyzed ++ symbolsWhere isAnalyzedR m l := by
  induction l with
  | nil => intro init; simp [runFold, symbolsWhere]
  | cons p l ih =>
    intro init
    rw [runFold_cons, ih]
    cases h : classify m p <;>
      simp [consumeResult, symbolsWhere, isAnalyzedR, h, List.filterMap_cons]

lemma runFold_low_value (m : ℚ)
    (l : List (String × Except String (List Bar))) :
    ∀ init, (runFold m init l).low_value_stocks =
      init.low_value_stocks ++ symbolsWhere isFilteredR m l := by
  induction l with
  | nil => intro init; simp [runFold, symbolsWhere]
  | cons p l ih =>
    intro init
    rw [runFold_cons, ih]
    cases h : classify m p <;>
      simp [consumeResult, symbolsWhere, isFilteredR, h, List.filterMap_cons]

lemma runFold_ma20 (m : ℚ) (l : List (String × Except String (List Bar))) :
    ∀ init, (runFold m init l).above_ma20 =
      init.above_ma20 + counterSum (fun f => f.above_ma20) m l := by
  induction l with
  | nil => intro init; simp [runFold, counterSum]
  | cons p l ih =>
    intro init
    rw [runFold_cons, ih]
    cases h : classify m p <;>
      simp [consumeResult, counterSum, contrib, h] <;> omega

lemma runFold_ma50 (m : ℚ) (l : List (String × Except String (List Bar))) :
    ∀ init, (runFold m init l).above_ma50 =
      init.above_ma50 + counterSum (fun f => f.above_ma50) m l := by
  induction l with
  | nil => intro init; simp [runFold, counterSum]
  | cons p l ih =>
    intro init
    rw [runFold_cons, ih]
    cases h : classify m p <;>
      simp [consumeResult, counterSum, contrib, h] <;> omega

lemma runFold_ma200 (m : ℚ) (l : List (String × Except String (List Bar))) :
    ∀ init, (runFold m init l).above_ma200 =
      init.above_ma200 + counterSum (fun f => f.above_ma200) m l := by
  induction l with
  | nil => intro init; simp [runFold, counterSum]
  | cons p l ih =>
    intro init
    rw [runFold_cons, ih]
    cases h : classify m p <;>
      simp [consumeResult, counterSum, contrib, h] <;> omega

lemma runFold_ema (m : ℚ) (l : List (String × Except String (List Bar))) :
    ∀ init, (runFold m init l).ema9_above_ema21 =
      init.ema9_above_ema21 +
        counterSum (fun f => f.ema9_above_ema21) m l := by
  induction l with
  | nil => intro init; simp [runFold, counterSum]
  | cons p l ih =>
    intro init
    rw [runFold_cons, ih]
    cases h : classify m p <;>
      simp [consumeResult, counterSum, contrib, h] <;> omega

lemma runFold_pct (m : ℚ) (l : List (String × Except String (List Bar))) :
    ∀ init, (runFold m init l).pct_above_ma20 = init.pct_above_ma20 ∧
      (runFold m init l).pct_above_ma50 = init.pct_above_ma50 ∧
      (runFold m init l).pct_above_ma200 = init.pct_above_ma200 ∧
      (runFold m init l).pct_ema_bullish = init.pct_ema_bullish := by
  induction l with
  | nil => intro init; simp [runFold]
  | cons p l ih =>
    intro init
    rw [runFold_cons]
    rcases ih (consumeResult init p.1 (classify m p)) with ⟨h1, h2, h3, h4⟩
    refine ⟨?_, ?_, ?_, ?_⟩ <;>
      cases h : classify m p <;>
      simp [consumeResult, h] at h1 h2 h3 h4 ⊢ <;>
      simp [h1, h2, h3, h4]

lemma addPercentages_total (st : BreadthStats) :
    (addPercentages st).total = st.total := by
  unfold addPercentages; split <;> rfl

lemma addPercentages_filtered (st : BreadthStats) :
    (addPercentages st).filtered_out = st.filtered_out := by
  unfold addPercentages; split <;> rfl

lemma addPercentages_failed (st : BreadthStats) :
    (addPercentages st).failed = st.failed := by
  unfold addPercentages; split <;> rfl

lemma addPercentages_analyzed (st : BreadthStats) :
    (addPercentages st).analyzed = st.analyzed := by
  unfold addPercentages; split <;> rfl

lemma addPercentages_low_value (st : BreadthStats) :
    (addPercentages st).low_value_stocks = st.low_value_stocks := by
  unfold addPercentages; split <;> rfl

lemma addPercentages_ma20 (st : BreadthStats) :
    (addPercentages st).above_ma20 = st.above_ma20 := by
  unfold addPercentages; split <;> rfl

lemma addPercentages_ma50 (st : BreadthStats) :
    (addPercentages st).above_ma50 = st.above_ma50 := by
  unfold addPercentages; split <;> rfl

lemma addPercentages_ma200 (st : BreadthStats) :
    (addPercentages st).above_ma200 = st.above_ma200 := by
  unfold addPercentages; split <;> rfl

lemma addPercentages_ema (st : BreadthStats) :
    (addPercentages st).ema9_above_ema21 = st.ema9_above_ema21 := by
  unfold addPercentages; split <;> rfl

lemma find_of_any {κ α : Type} [DecidableEq κ] (rows : List (κ × α))
    (k : κ) (v : α) (h : rows.any (fun kv => kv.1 = k) = true) :
    (rows.map (fun kv => if kv.1 = k then (k, v) else kv)).find?
      (fun kv => kv.1 = k) = some (k, v) := by
  induction rows with
  | nil => simp at h
  | cons r rs ih =>
    by_cases hk : r.1 = k
    · simp [List.find?, hk]
    · have hrs : rs.any (fun kv => kv.1 = k) = true := by
        simpa [List.any_cons, hk] using h
      simp [List.find?, hk, ih hrs]

lemma find_append_single_none {κ α : Type} [DecidableEq κ]
    (rows : List (κ × α)) (k : κ) (v : α)
    (h : ∀ kv ∈ rows, ¬(kv.1 = k)) :
    (rows ++ [(k, v)]).find? (fun kv => kv.1 = k) = some (k, v) := by
  induction rows with
  | nil => simp [List.find?]
  | cons r rs ih =>
    have hr := h r (by simp)
    simp [List.find?_cons, hr, ih (fun kv hkv => h kv (by simp [hkv]))]

lemma lookupRow_upsert_self {κ α : Type} [DecidableEq κ]
    (rows : List (κ × α)) (k : κ) (v : α) :
    lookupRow (upsert rows k v) k = some v := by
  unfold upsert lookupRow
  split
  · next h => rw [find_of_any rows k v h]; rfl
  · next h =>
    have hall : ∀ kv ∈ rows, ¬(kv.1 = k) := by
      intro kv hkv heq
      exact h (List.any_eq_true.mpr ⟨kv, hkv, by simp [heq]⟩)
    rw [find_append_single_none rows k v hall]
    rfl

lemma find_map_replace_ne {κ α : Type} [DecidableEq κ] (rows : List (κ × α))
    (k k' : κ) (v : α) (hne : k' ≠ k) :
    (rows.map (fun kv => if kv.1 = k then (k, v) else kv)).find?
      (fun kv => kv.1 = k') = rows.find? (fun kv => kv.1 = k') := by
  induction rows with
  | nil => rfl
  | cons r rs ih =>
    by_cases hk : r.1 = k
    · have h1 : ¬(k = k') := fun hc => hne hc.symm
      have h2 : ¬(r.1 = k') := by rw [hk]; exact h1
      simp [List.find?_cons, hk, h1, h2, ih]
    · by_cases hk' : r.1 = k'
      · simp [List.find?_cons, hk, hk', hne]
      · simp [List.find?_cons, hk, hk', ih]

lemma find_append_single_ne {κ α : Type} [DecidableEq κ]
    (rows : List (κ × α)) (k k' : κ) (v : α) (hne : k' ≠ k) :
    (rows ++ [(k, v)]).find? (fun kv => kv.1 = k') =
      rows.find? (fun kv => kv.1 = k') := by
  induction rows with
  | nil =>
    have h1 : ¬(k = k') := fun hc => hne hc.symm
    simp [List.find?, h1]
  | cons r rs ih =>
    by_cases hk' : r.1 = k'
    · simp [List.find?_cons, hk']
    · simp [List.find?_cons, hk', ih]

lemma lookupRow_upsert_ne {κ α : Type} [DecidableEq κ]
    (rows : List (κ × α)) (k k' : κ) (v : α) (hne : k' ≠ k) :
    lookupRow (upsert rows k v) k' = lookupRow rows k' := by
  unfold upsert lookupRow
  split
  · rw [find_map_replace_ne rows k k' v hne]
  · rw [find_append_single_ne rows k k' v hne]

lemma lookupRow_foldl_upsert {κ α β : Type} [DecidableEq κ]
    (fk : β → κ) (fv : β → α) (l : List β) (k : κ)
    (h : ∀ b ∈ l, fk b ≠ k) :
    ∀ rows, lookupRow (l.foldl (fun rs b => upsert rs (fk b) (fv b)) rows) k =
      lookupRow rows k := by
  induction l with
  | nil => intro rows; rfl
  | cons b l ih =>
    intro rows
    have hb : fk b ≠ k := h b (by simp)
    have hl : ∀ x ∈ l, fk x ≠ k := fun x hx => h x (by simp [hx])
    rw [List.foldl_cons, ih hl, lookupRow_upsert_ne _ _ _ _ (fun hc => hb hc.symm)]

lemma symbolsWhere_length (q : SymbolResult → Bool) (m : ℚ)
    (l : List (String × Except String (List Bar))) :
    (symbolsWhere q m l).length = countWhere q m l := by
  induction l with
  | nil => rfl
  | cons p l ih =>
    by_cases h : q (classify m p) = true <;>
      simp [symbolsWhere, countWhere, List.filterMap_cons, List.countP_cons,
        h] <;>
      simpa [symbolsWhere, countWhere] using ih

lemma analyze_counters (inputs : List (String × Except String (List Bar)))
    (m : ℚ) :
    (analyze_market_breadth inputs m).total =
      countWhere isAnalyzedR m inputs ∧
    (analyze_market_breadth inputs m).filtered_out =
      countWhere isFilteredR m inputs ∧
    (analyze_market_breadth inputs m).failed =
      symbolsWhere isFailedR m inputs ∧
    (analyze_market_breadth inputs m).analyzed =
      symbolsWhere isAnalyzedR m inputs ∧
    (analyze_market_breadth inputs m).low_value_stocks =
      symbolsWhere isFilteredR m inputs ∧
    (analyze_market_breadth inputs m).above_ma20 =
      counterSum (fun f => f.above_ma20) m inputs ∧
    (analyze_market_breadth inputs m).above_ma50 =
      counterSum (fun f => f.above_ma50) m inputs ∧
    (analyze_market_breadth inputs m).above_ma200 =
      counterSum (fun f => f.above_ma200) m inputs ∧
    (analyze_market_breadth inputs m).ema9_above_ema21 =
      counterSum (fun f => f.ema9_above_ema21) m inputs := by
  rw [analyze_market_breadth_eq_runFold]
  refine ⟨?_, ?_, ?_, ?_, ?_, ?_, ?_, ?_, ?_⟩
  · rw [addPercentages_total, runFold_total]; simp [initStats]
  · rw [addPercentages_filtered, runFold_filtered]; simp [initStats]
  · rw [addPercentages_failed, runFold_failed]; simp [initStats]
  · rw [addPercentages_analyzed, runFold_analyzed]; simp [initStats]
  · rw [addPercentages_low_value, runFold_low_value]; simp [initStats]
  · rw [addPercentages_ma20, runFold_ma20]; simp [initStats]
  · rw [addPercentages_ma50, runFold_ma50]; simp [initStats]
  · rw [addPercentages_ma200, runFold_ma200]; simp [initStats]
  · rw [addPercentages_ema, runFold_ema]; simp [initStats]

lemma analyze_pct (inputs : List (String × Except String (List Bar)))
    (m : ℚ) :
    (analyze_market_breadth inputs m).pct_above_ma20 =
      (if 0 < countWhere isAnalyzedR m inputs then
        some ((counterSum (fun f => f.above_ma20) m inputs : ℚ) /
          (countWhere isAnalyzedR m inputs : ℚ) * 100)
      else none) ∧
    (analyze_market_breadth inputs m).pct_above_ma50 =
      (if 0 < countWhere isAnalyzedR m inputs then
        some ((counterSum (fun f => f.above_ma50) m inputs : ℚ) /
          (countWhere isAnalyzedR m inputs : ℚ) * 100)
      else none) ∧
    (analyze_market_breadth inputs m).pct_above_ma200 =
      (if 0 < countWhere isAnalyzedR m inputs then
        some ((counterSum (fun f => f.above_ma200) m inputs : ℚ) /
          (countWhere isAnalyzedR m inputs : ℚ) * 100)
      else none) ∧
    (analyze_market_breadth inputs m).pct_ema_bullish =
      (if 0 < countWhere isAnalyzedR m inputs then
        some ((counterSum (fun f => f.ema9_above_ema21) m inputs : ℚ) /
          (countWhere isAnalyzedR m inputs : ℚ) * 100)
      else none) := by
  have ht : (runFold m initStats inputs).total =
      countWhere isAnalyzedR m inputs := by
    rw [runFold_total]; simp [initStats]
  have h20 : (runFold m initStats inputs).above_ma20 =
      counterSum (fun f => f.above_ma20) m inputs := by
    rw [runFold_ma20]; simp [initStats]
  have h50 : (runFold m initStats inputs).above_ma50 =
      counterSum (fun f => f.above_ma50) m inputs := by
    rw [runFold_ma50]; simp [initStats]
  have h200 : (runFold m initStats inputs).above_ma200 =
      counterSum (fun f => f.above_ma200) m inputs := by
    rw [runFold_ma200]; simp [initStats]
  have hema : (runFold m initStats inputs).ema9_above_ema21 =
      counterSum (fun f => f.ema9_above_ema21) m inputs := by
    rw [runFold_ema]; simp [initStats]
  have hp := runFold_pct m inputs initStats
  have e20 : ∀ st : BreadthStats, (addPercentages st).pct_above_ma20 =
      if 0 < st.total then some ((st.above_ma20 : ℚ) / st.total * 100)
      else st.pct_above_ma20 := by
    intro st; unfold addPercentages; split <;> rfl
  have e50 : ∀ st : BreadthStats, (addPercentages st).pct_above_ma50 =
      if 0 < st.total then some ((st.above_ma50 : ℚ) / st.total * 100)
      else st.pct_above_ma50 := by
    intro st; unfold addPercentages; split <;> rfl
  have e200 : ∀ st : BreadthStats, (addPercentages st).pct_above_ma200 =
      if 0 < st.total then some ((st.above_ma200 : ℚ) / st.total * 100)
      else st.pct_above_ma200 := by
    intro st; unfold addPercentages; split <;> rfl
  have eema : ∀ st : BreadthStats, (addPercentages st).pct_ema_bullish =
      if 0 < st.total then
        some ((st.ema9_above_ema21 : ℚ) / st.total * 100)
      else st.pct_ema_bullish := by
    intro st; unfold addPercentages; split <;> rfl
  rw [analyze_market_breadth_eq_runFold]
  refine ⟨?_, ?_, ?_, ?_⟩
  · rw [e20, ht, h20, hp.1]; rfl
  · rw [e50, ht, h50, hp.2.1]; rfl
  · rw [e200, ht, h200, hp.2.2.1]; rfl
  · rw [eema, ht, hema, hp.2.2.2]; rfl

end StockDashboard

namespace StockDashboard

/-! ### Claim theorems -/

/-- C10: calling the cache store's put operation (`save_ohlcv`) with an
empty bar sequence is a complete no-op on every prior store state: the
store is unchanged, so the metadata row (including `last_update`,
start/end dates and `record_count`), every stored bar, and every
subsequent `is_cache_valid` answer are exactly what they were before the
call. -/
theorem save_ohlcv_empty_noop (now t max_age : Int)
    (symbol resolution : String) (store : Store) :
    save_ohlcv now symbol [] resolution store = store ∧
    metaFor (save_ohlcv now symbol [] resolution store) symbol resolution =
      metaFor store symbol resolution ∧
    (∀ (sym : String) (d : Int) (res : String),
      barAt (save_ohlcv now symbol [] resolution store) sym d res =
        barAt store sym d res) ∧
    is_cache_valid t (save_ohlcv now symbol [] resolution store)
        symbol resolution max_age =
      is_cache_valid t store symbol resolution max_age := by
  have h : save_ohlcv now symbol [] resolution store = store := by
    simp [save_ohlcv]
  exact ⟨h, by rw [h], fun _ _ _ => by rw [h], by rw [h]⟩

/-- C9: after `save_stats(stats)` the breadth result cache holds exactly
the one snapshot just written (any prior snapshot is overwritten), a
subsequent `get_cached_stats(max_age)` returns exactly the saved stats
whenever the age `now - save timestamp` is at most `max_age`, returns
nothing when the age exceeds `max_age`, and returns nothing when no
snapshot has ever been saved. -/
theorem breadth_cache_single_slot {α : Type}
    (prior : Option (BreadthCacheFile α)) (stats : α)
    (tSave tLoad maxAge : Int) :
    save_stats tSave stats prior = some ⟨tSave, stats⟩ ∧
    (tLoad - tSave ≤ maxAge →
      get_cached_stats tLoad maxAge (save_stats tSave stats prior) =
        some stats) ∧
    (maxAge < tLoad - tSave →
      get_cached_stats tLoad maxAge (save_stats tSave stats prior) = none) ∧
    get_cached_stats tLoad maxAge (none : Option (BreadthCacheFile α)) =
      none := by
  refine ⟨rfl, ?_, ?_, rfl⟩
  · intro h
    simp only [save_stats, get_cached_stats]
    rw [if_neg (not_lt.mpr h)]
  · intro h
    simp only [save_stats, get_cached_stats]
    rw [if_pos h]

theorem breadth_cache_single_slot_witness :
    ((11 : Int) - 10 ≤ 1 ∧
      get_cached_stats 11 1 (save_stats 10 (3 : Nat) none) = some 3) ∧
    ((1 : Int) < 14 - 10 ∧
      get_cached_stats 14 1 (save_stats 10 (3 : Nat) none) = none) :=
  ⟨⟨by decide, (breadth_cache_single_slot none 3 10 11 1).2.1 (by decide)⟩,
   ⟨by decide, (breadth_cache_single_slot none 3 10 14 1).2.2.1 (by decide)⟩⟩

/-- C1 counterexample: `save_ohlcv` sets `record_count` to the size of the
batch it was handed, not to the number of bars stored for the
`(symbol, resolution)` pair. Saving a one-bar batch for date 2 into a
store already holding a bar for date 1 (the incremental-update path)
leaves two stored bars but `record_count = 1`. -/
theorem record_count_diverges_from_stored_bars :
    (metaFor
        (save_ohlcv 101 "AAA" [⟨2, 1, 1, 1, 1, 5⟩] "1D"
          (save_ohlcv 100 "AAA" [⟨1, 1, 1, 1, 1, 5⟩] "1D" emptyStore))
        "AAA" "1D").map MetaRow.record_count = some 1 ∧
    storedBarCount
        (save_ohlcv 101 "AAA" [⟨2, 1, 1, 1, 1, 5⟩] "1D"
          (save_ohlcv 100 "AAA" [⟨1, 1, 1, 1, 1, 5⟩] "1D" emptyStore))
        "AAA" "1D" = 2 := by decide

/-- C1 (amended): after `save_ohlcv(symbol, df, resolution)` with a
nonempty batch, the metadata row for `(symbol, resolution)` is exactly
`(last_update = now, start_date = min batch date, end_date = max batch
date, record_count = size of the batch just passed in)` — the batch size,
not the number of bars stored for the pair. -/
theorem record_count_is_batch_size (now : Int) (symbol resolution : String)
    (df : List OBar) (store : Store) (h : df ≠ []) :
    metaFor (save_ohlcv now symbol df resolution store) symbol resolution =
      some ⟨now, minDate df, maxDate df, df.length⟩ := by
  simp only [save_ohlcv, if_neg h, metaFor]
  exact lookupRow_upsert_self _ _ _

theorem record_count_is_batch_size_witness :
    ([(⟨3, 1, 2, 1, 2, 5⟩ : OBar)] ≠ []) ∧
    metaFor (save_ohlcv 7 "AAA" [⟨3, 1, 2, 1, 2, 5⟩] "1D" emptyStore)
      "AAA" "1D" = some ⟨7, 3, 3, 1⟩ :=
  ⟨by decide,
   record_count_is_batch_size 7 "AAA" "1D" [⟨3, 1, 2, 1, 2, 5⟩] emptyStore
    (by decide)⟩

lemma countWhere_partition (m : ℚ)
    (l : List (String × Except String (List Bar))) :
    countWhere isAnalyzedR m l + countWhere isExcludedR m l +
      countWhere isFilteredR m l + countWhere isFailedR m l = l.length := by
  induction l with
  | nil => rfl
  | cons p l ih =>
    have h1 : (if isAnalyzedR (classify m p) = true then 1 else 0) +
        (if isExcludedR (classify m p) = true then 1 else 0) +
        (if isFilteredR (classify m p) = true then 1 else 0) +
        (if isFailedR (classify m p) = true then 1 else 0) = 1 := by
      cases classify m p <;> rfl
    simp only [countWhere, List.countP_cons, List.length_cons] at ih ⊢
    omega

/-- C5: every submitted symbol ends in exactly one of the four outcomes
(analyzed, excluded for insufficient history, filtered out for low trading
value, failed), and the reported total equals the number of submitted
symbols minus the excluded count minus the filtered-out count minus the
failed count. -/
theorem breadth_total_partition
    (inputs : List (String × Except String (List Bar))) (m : ℚ) :
    (∀ p : String × Except String (List Bar),
      btoN (isAnalyzedR (classify m p)) + btoN (isExcludedR (classify m p)) +
        btoN (isFilteredR (classify m p)) +
        btoN (isFailedR (classify m p)) = 1) ∧
    (analyze_market_breadth inputs m).total +
        countWhere isExcludedR m inputs +
        (analyze_market_breadth inputs m).filtered_out +
        (analyze_market_breadth inputs m).failed.length = inputs.length ∧
    (analyze_market_breadth inputs m).total =
      inputs.length - countWhere isExcludedR m inputs -
        (analyze_market_breadth inputs m).filtered_out -
        (analyze_market_breadth inputs m).failed.length := by
  obtain ⟨ht, hf, hfl, -⟩ := analyze_counters inputs m
  have hpart := countWhere_partition m inputs
  refine ⟨fun p => by cases classify m p <;> rfl, ?_, ?_⟩ <;>
    rw [ht, hf, hfl, symbolsWhere_length] <;> omega

/-- C8: the aggregate produced by the analyzer's reduction step — the five
counters, the filtered-out count, and the four derived percentages — is
identical under every permutation of the order in which the per-symbol
results are consumed. -/
theorem breadth_aggregate_perm_invariant
    (l1 l2 : List (String × Except String (List Bar))) (m : ℚ)
    (h : l1.Perm l2) :
    (analyze_market_breadth l1 m).total =
      (analyze_market_breadth l2 m).total ∧
    (analyze_market_breadth l1 m).above_ma20 =
      (analyze_market_breadth l2 m).above_ma20 ∧
    (analyze_market_breadth l1 m).above_ma50 =
      (analyze_market_breadth l2 m).above_ma50 ∧
    (analyze_market_breadth l1 m).above_ma200 =
      (analyze_market_breadth l2 m).above_ma200 ∧
    (analyze_market_breadth l1 m).ema9_above_ema21 =
      (analyze_market_breadth l2 m).ema9_above_ema21 ∧
    (analyze_market_breadth l1 m).filtered_out =
      (analyze_market_breadth l2 m).filtered_out ∧
    (analyze_market_breadth l1 m).pct_above_ma20 =
      (analyze_market_breadth l2 m).pct_above_ma20 ∧
    (analyze_market_breadth l1 m).pct_above_ma50 =
      (analyze_market_breadth l2 m).pct_above_ma50 ∧
    (analyze_market_breadth l1 m).pct_above_ma200 =
      (analyze_market_breadth l2 m).pct_above_ma200 ∧
    (analyze_market_breadth l1 m).pct_ema_bullish =
      (analyze_market_breadth l2 m).pct_ema_bullish := by
  have hcount : ∀ q : SymbolResult → Bool,
      countWhere q m l1 = countWhere q m l2 := fun q =>
    h.countP_eq _
  have hsum : ∀ pick : IndicatorFlags → Bool,
      counterSum pick m l1 = counterSum pick m l2 := fun pick =>
    (h.map _).sum_eq
  obtain ⟨t1, f1, -, -, -, a1, b1, c1, d1⟩ := analyze_counters l1 m
  obtain ⟨t2, f2, -, -, -, a2, b2, c2, d2⟩ := analyze_counters l2 m
  obtain ⟨p1, q1, r1, s1⟩ := analyze_pct l1 m
  obtain ⟨p2, q2, r2, s2⟩ := analyze_pct l2 m
  refine ⟨?_, ?_, ?_, ?_, ?_, ?_, ?_, ?_, ?_, ?_⟩
  · rw [t1, t2, hcount]
  · rw [a1, a2, hsum]
  · rw [b1, b2, hsum]
  · rw [c1, c2, hsum]
  · rw [d1, d2, hsum]
  · rw [f1, f2, hcount]
  · rw [p1, p2, hcount, hsum]
  · rw [q1, q2, hcount, hsum]
  · rw [r1, r2, hcount, hsum]
  · rw [s1, s2, hcount, hsum]

lemma symbolsWhere_all_true (q : SymbolResult → Bool) (m : ℚ)
    (l : List (String × Except String (List Bar)))
    (h : ∀ p ∈ l, q (classify m p) = true) :
    symbolsWhere q m l = l.map Prod.fst := by
  induction l with
  | nil => rfl
  | cons p l ih =>
    have hp := h p (by simp)
    have hl : ∀ x ∈ l, q (classify m x) = true := fun x hx =>
      h x (by simp [hx])
    simp [symbolsWhere, List.filterMap_cons, hp]
    simpa [symbolsWhere] using ih hl

lemma symbolsWhere_all_false (q : SymbolResult → Bool) (m : ℚ)
    (l : List (String × Except String (List Bar)))
    (h : ∀ p ∈ l, q (classify m p) = false) :
    symbolsWhere q m l = [] := by
  induction l with
  | nil => rfl
  | cons p l ih =>
    have hp := h p (by simp)
    have hl : ∀ x ∈ l, q (classify m x) = false := fun x hx =>
      h x (by simp [hx])
    simp [symbolsWhere, List.filterMap_cons, hp]
    simpa [symbolsWhere] using ih hl

lemma isFailedR_of_isAnalyzedR (r : SymbolResult)
    (h : isAnalyzedR r = true) : isFailedR r = false := by
  cases r <;> simp_all [isAnalyzedR, isFailedR]

/-- C4: when exactly one submitted symbol `K` raises during its per-symbol
computation while all the other symbols end analyzed, the batch returns
with `total = N - 1`, the failed list is exactly `[K]`, and the other
symbols' processing is unaffected: every one of them appears, in
submission order, in the analyzed list. -/
theorem failure_isolation
    (l1 l2 : List (String × Except String (List Bar))) (K e : String)
    (m : ℚ)
    (h : ∀ p ∈ l1 ++ l2, isAnalyzedR (classify m p) = true) :
    (analyze_market_breadth (l1 ++ (K, Except.error e) :: l2) m).total + 1 =
      (l1 ++ (K, Except.error e) :: l2).length ∧
    (analyze_market_breadth (l1 ++ (K, Except.error e) :: l2) m).failed =
      [K] ∧
    (analyze_market_breadth (l1 ++ (K, Except.error e) :: l2) m).analyzed =
      (l1 ++ l2).map Prod.fst := by
  have h1 : ∀ p ∈ l1, isAnalyzedR (classify m p) = true := fun p hp =>
    h p (List.mem_append_left _ hp)
  have h2 : ∀ p ∈ l2, isAnalyzedR (classify m p) = true := fun p hp =>
    h p (List.mem_append_right _ hp)
  have hmid : classify m (K, Except.error e) = SymbolResult.failed e := rfl
  obtain ⟨tL, -, flL, aL, -⟩ := analyze_counters
    (l1 ++ (K, Except.error e) :: l2) m
  have hma : isAnalyzedR (SymbolResult.failed e) = false := rfl
  have hmf : isFailedR (SymbolResult.failed e) = true := rfl
  refine ⟨?_, ?_, ?_⟩
  · rw [tL]
    have e1 : List.countP (fun p => isAnalyzedR (classify m p)) l1 =
        l1.length := List.countP_eq_length.mpr h1
    have e2 : List.countP (fun p => isAnalyzedR (classify m p)) l2 =
        l2.length := List.countP_eq_length.mpr h2
    unfold countWhere
    simp only [List.countP_append, List.countP_cons, hmid, hma,
      List.length_append, List.length_cons, e1, e2]
    simp
    omega
  · rw [flL]
    have e1 := symbolsWhere_all_false isFailedR m l1
      (fun p hp => isFailedR_of_isAnalyzedR _ (h1 p hp))
    have e2 := symbolsWhere_all_false isFailedR m l2
      (fun p hp => isFailedR_of_isAnalyzedR _ (h2 p hp))
    simp only [symbolsWhere] at e1 e2
    simp only [symbolsWhere, List.filterMap_append, List.filterMap_cons,
      hmid, hmf, e1, e2]
    simp
  · rw [aL]
    have e1 := symbolsWhere_all_true isAnalyzedR m l1 h1
    have e2 := symbolsWhere_all_true isAnalyzedR m l2 h2
    simp only [symbolsWhere] at e1 e2
    simp only [symbolsWhere, List.filterMap_append, List.filterMap_cons,
      hmid, hma, e1, e2]
    simp

/-- C7: a symbol with at least 20 cached bars whose trading value
(latest close × latest volume) is strictly below `min_trading_value` is
classified `filtered_out`; in the aggregate it bumps the filtered-out
count by one, is recorded in the low-value list, and leaves the analyzed
list and the total (the aggregate denominator) untouched. -/
theorem liquidity_filter
    (l1 l2 : List (String × Except String (List Bar))) (K : String)
    (df : List Bar) (m : ℚ) (hlen : 20 ≤ df.length)
    (htv : (df.getLastD ⟨0, 0⟩).closeP * (df.getLastD ⟨0, 0⟩).volume < m) :
    analyze_single_symbol (Except.ok df) m = SymbolResult.filteredOut ∧
    (analyze_market_breadth (l1 ++ (K, Except.ok df) :: l2) m).filtered_out =
      (analyze_market_breadth (l1 ++ l2) m).filtered_out + 1 ∧
    (analyze_market_breadth (l1 ++ (K, Except.ok df) :: l2) m).total =
      (analyze_market_breadth (l1 ++ l2) m).total ∧
    (analyze_market_breadth (l1 ++ (K, Except.ok df) :: l2) m).analyzed =
      (analyze_market_breadth (l1 ++ l2) m).analyzed ∧
    K ∈ (analyze_market_breadth
        (l1 ++ (K, Except.ok df) :: l2) m).low_value_stocks := by
  have hmid : analyze_single_symbol (Except.ok df) m =
      SymbolResult.filteredOut := by
    simp only [analyze_single_symbol]
    rw [if_neg (by omega : ¬(df.length < 20)), if_pos htv]
  obtain ⟨tL, fL, -, aL, lvL, -⟩ := analyze_counters
    (l1 ++ (K, Except.ok df) :: l2) m
  obtain ⟨tR, fR, -, aR, -⟩ := analyze_counters (l1 ++ l2) m
  refine ⟨hmid, ?_, ?_, ?_, ?_⟩
  · rw [fL, fR]
    simp [countWhere, List.countP_append, List.countP_cons, classify, hmid,
      isFilteredR]
    omega
  · rw [tL, tR]
    simp [countWhere, List.countP_append, List.countP_cons, classify, hmid,
      isAnalyzedR]
  · rw [aL, aR]
    simp [symbolsWhere, List.filterMap_append, List.filterMap_cons, classify,
      hmid, isAnalyzedR]
  · rw [lvL]
    simp [symbolsWhere, List.filterMap_append, List.filterMap_cons, classify,
      hmid, isFilteredR]

theorem liquidity_filter_witness :
    (20 ≤ (List.replicate 20 (⟨100, 1000000⟩ : Bar)).length) ∧
    (((List.replicate 20 (⟨100, 1000000⟩ : Bar)).getLastD ⟨0, 0⟩).closeP *
        ((List.replicate 20 (⟨100, 1000000⟩ : Bar)).getLastD ⟨0, 0⟩).volume <
      (3000000000 : ℚ)) ∧
    analyze_single_symbol
        (Except.ok (List.replicate 20 (⟨100, 1000000⟩ : Bar)))
        3000000000 = SymbolResult.filteredOut :=
  have h1 : 20 ≤ (List.replicate 20 (⟨100, 1000000⟩ : Bar)).length := by
    simp
  have h2 : ((List.replicate 20 (⟨100, 1000000⟩ : Bar)).getLastD
        ⟨0, 0⟩).closeP *
      ((List.replicate 20 (⟨100, 1000000⟩ : Bar)).getLastD ⟨0, 0⟩).volume <
      (3000000000 : ℚ) := by
    have hb : (List.replicate 20 (⟨100, 1000000⟩ : Bar)).getLastD ⟨0, 0⟩ =
        ⟨100, 1000000⟩ := rfl
    rw [hb]
    norm_num
  ⟨h1, h2, (liquidity_filter [] [] "PENNY" _ _ h1 h2).1⟩

theorem breadth_aggregate_perm_invariant_witness :
    ([("A", Except.error "boom"), ("B", Except.ok ([] : List Bar))].Perm
      [("B", Except.ok ([] : List Bar)), ("A", Except.error "boom")]) ∧
    (analyze_market_breadth
        [("A", Except.error "boom"), ("B", Except.ok ([] : List Bar))]
        0).total =
      (analyze_market_breadth
        [("B", Except.ok ([] : List Bar)), ("A", Except.error "boom")]
        0).total :=
  ⟨List.Perm.swap ("B", Except.ok []) ("A", Except.error "boom") [],
   (breadth_aggregate_perm_invariant _ _ 0
     (List.Perm.swap ("B", Except.ok []) ("A", Except.error "boom") [])).1⟩

end StockDashboard

namespace StockDashboard

theorem failure_isolation_witness :
    (∀ p ∈ ([("GOOD", Except.ok (List.replicate 20 (⟨1, 1⟩ : Bar)))] ++
        ([] : List (String × Except String (List Bar)))),
      isAnalyzedR (classify 0 p) = true) ∧
    (analyze_market_breadth
        ([("GOOD", Except.ok (List.replicate 20 (⟨1, 1⟩ : Bar)))] ++
          ("K", Except.error "boom") :: []) 0).failed = ["K"] := by
  have hyp : ∀ p ∈ ([("GOOD",
        Except.ok (List.replicate 20 (⟨1, 1⟩ : Bar)))] ++
        ([] : List (String × Except String (List Bar)))),
      isAnalyzedR (classify 0 p) = true := by
    intro p hp
    simp only [List.append_nil, List.mem_singleton] at hp
    subst hp
    have hlast : (List.replicate 20 (⟨1, 1⟩ : Bar)).getLastD ⟨0, 0⟩ =
        (⟨1, 1⟩ : Bar) := rfl
    simp only [classify, analyze_single_symbol, hlast]
    norm_num [isAnalyzedR]
  exact ⟨hyp, (failure_isolation _ _ "K" "boom" 0 hyp).2.1⟩

lemma isAbove_maOpt_iff (c : ℚ) (k : Nat) (cl : List ℚ) :
    isAbove c (maOpt k cl) = true ↔ k ≤ cl.length ∧ smaLast k cl < c := by
  unfold maOpt
  split
  · next h => simp [isAbove, h]
  · next h => simp [isAbove, h]

lemma emaBullish_emaOpt_iff (cl : List ℚ) :
    emaBullish (emaOpt 9 cl) (emaOpt 21 cl) = true ↔
      9 ≤ cl.length ∧ 21 ≤ cl.length ∧ emaLast 21 cl < emaLast 9 cl := by
  unfold emaOpt
  split <;> split <;> simp_all [emaBullish]

/-- C6: for every analyzed symbol, `above_maK` (k ∈ {20, 50, 200}) is true
iff at least k bars of history exist (the MA is defined) and the latest
close is strictly greater than the trailing-k mean — equality gives false,
and an undefined MA gives false rather than missing; `ema9_above_ema21` is
true iff both EMAs are defined (≥ 9 resp. ≥ 21 bars) and EMA9 is strictly
greater than EMA21. -/
theorem strict_ma_flags (df : List Bar) (m : ℚ) (f : IndicatorFlags)
    (h : analyze_single_symbol (Except.ok df) m = SymbolResult.analyzed f) :
    (f.above_ma20 = true ↔
      20 ≤ df.length ∧
        smaLast 20 (df.map Bar.closeP) < (df.getLastD ⟨0, 0⟩).closeP) ∧
    (f.above_ma50 = true ↔
      50 ≤ df.length ∧
        smaLast 50 (df.map Bar.closeP) < (df.getLastD ⟨0, 0⟩).closeP) ∧
    (f.above_ma200 = true ↔
      200 ≤ df.length ∧
        smaLast 200 (df.map Bar.closeP) < (df.getLastD ⟨0, 0⟩).closeP) ∧
    (f.ema9_above_ema21 = true ↔
      9 ≤ df.length ∧ 21 ≤ df.length ∧
        emaLast 21 (df.map Bar.closeP) < emaLast 9 (df.map Bar.closeP)) := by
  simp only [analyze_single_symbol] at h
  split at h
  · simp at h
  · split at h
    · simp at h
    · injection h with h
      rw [← h]
      refine ⟨?_, ?_, ?_, ?_⟩
      · simpa [List.length_map] using
          isAbove_maOpt_iff (df.getLastD ⟨0, 0⟩).closeP 20 (df.map Bar.closeP)
      · simpa [List.length_map] using
          isAbove_maOpt_iff (df.getLastD ⟨0, 0⟩).closeP 50 (df.map Bar.closeP)
      · simpa [List.length_map] using
          isAbove_maOpt_iff (df.getLastD ⟨0, 0⟩).closeP 200
            (df.map Bar.closeP)
      · simpa [List.length_map] using
          emaBullish_emaOpt_iff (df.map Bar.closeP)

lemma barAt_save_ohlcv_of_ne (now : Int) (sym res : String)
    (df : List OBar) (store : Store) (sym2 : String) (d : Int)
    (res2 : String)
    (h : ∀ b ∈ df, ((sym, b.date, res) : DataKey) ≠ (sym2, d, res2)) :
    barAt (save_ohlcv now sym df res store) sym2 d res2 =
      barAt store sym2 d res2 := by
  unfold save_ohlcv
  split
  · rfl
  · unfold barAt
    exact lookupRow_foldl_upsert (fun b => ((sym, b.date, res) : DataKey))
      (fun b => ⟨b.openP, b.highP, b.lowP, b.closeP, b.volume⟩)
      df (sym2, d, res2) h store.data

lemma mergeFetched_store_preserves (now ld : Int) (ticker source : String)
    (rn : Bool) (df : List OBar) (store : Store) (d : Int) (res : String)
    (hd : d ≤ ld) :
    ∀ r, mergeFetched now (some ld) ticker source rn df store = some r →
      barAt r.2 ticker d res = barAt store ticker d res := by
  intro r hr
  unfold mergeFetched at hr
  by_cases hdf : df = []
  · simp [hdf] at hr
  · rw [if_neg hdf] at hr
    by_cases hnew : df.filter (fun b => decide (ld < b.date)) = []
    · cases rn
      · simp [hnew] at hr
      · simp [hnew] at hr
        rw [← hr]
    · dsimp only at hr
      rw [if_neg hnew] at hr
      injection hr with hr
      rw [← hr]
      apply barAt_save_ohlcv_of_ne
      intro b hb heq
      have hgt : ld < b.date := by
        have := List.of_mem_filter hb
        simpa using this
      have hbd : b.date = d := by
        have := congrArg (fun k : DataKey => k.2.1) heq
        simpa using this
      omega

/-- C2 counterexample: a bar re-appearing in the fetched overlap window
with a date at or before the last cached date is NOT upserted — the
updater discards it (`df = df[df.index > last_date]`) before the store is
written. With date 10 cached (close 1) and the vendor returning a
corrected bar for date 10 (close 2), `update_ticker` reports
"No new data" and the stored bar keeps its old fields. -/
theorem refetched_overlap_bar_not_overwritten :
    update_ticker 13 (fun _ _ => Except.ok [⟨10, 2, 2, 2, 2, 7⟩])
        (fun _ _ => Except.ok [])
        (save_ohlcv 9 "AAA" [⟨10, 1, 1, 1, 1, 5⟩] "1D" emptyStore) "AAA" =
      ((some 0, "No new data"),
        save_ohlcv 9 "AAA" [⟨10, 1, 1, 1, 1, 5⟩] "1D" emptyStore) ∧
    barAt
        (update_ticker 13 (fun _ _ => Except.ok [⟨10, 2, 2, 2, 2, 7⟩])
          (fun _ _ => Except.ok [])
          (save_ohlcv 9 "AAA" [⟨10, 1, 1, 1, 1, 5⟩] "1D" emptyStore)
          "AAA").2 "AAA" 10 "1D" = some ⟨1, 1, 1, 1, 5⟩ ∧
    (⟨1, 1, 1, 1, 5⟩ : BarRow) ≠ ⟨2, 2, 2, 2, 7⟩ := by decide

/-- C2 (amended): bars whose dates are at or before the last cached date
are discarded by the incremental updater before the store is written —
only bars strictly newer than the last cached date are saved — so the
stored OHLCV fields at any already-cached date are never overwritten by
`update_ticker`, whatever the vendors return. -/
theorem overlap_bars_discarded (now : Int)
    (vn tc : Int → Int → Except String (List OBar)) (store : Store)
    (ticker : String) (ld d : Int) (res : String)
    (hld : get_last_cached_date store ticker = some ld) (hd : d ≤ ld) :
    barAt (update_ticker now vn tc store ticker).2 ticker d res =
      barAt store ticker d res := by
  simp only [update_ticker, hld]
  by_cases hskip : now - ld ≤ 1
  · simp [selectWindow, hskip]
  · simp only [selectWindow, if_neg hskip]
    cases hv : vn (ld - 5) now with
    | ok df =>
      cases hm : mergeFetched now (some ld) ticker "VnStock" true df store
        with
      | none => simp [hm]
      | some r =>
        simp only [hm]
        exact mergeFetched_store_preserves now ld ticker "VnStock" true df
          store d res hd r hm
    | error msg =>
      by_cases hr : rateLimitErr msg = true
      · simp only [hr, if_pos rfl]
        cases ht : tc (ld - 5) now with
        | error m2 => rfl
        | ok df =>
          cases hm : mergeFetched now (some ld) ticker "TCBS" false df store
            with
          | none => simp [hm]
          | some r =>
            simp only [hm]
            exact mergeFetched_store_preserves now ld ticker "TCBS" false df
              store d res hd r hm
      · simp [hr]

theorem overlap_bars_discarded_witness :
    (get_last_cached_date
        (save_ohlcv 9 "AAA" [⟨10, 1, 1, 1, 1, 5⟩] "1D" emptyStore) "AAA" =
      some 10) ∧
    ((10 : Int) ≤ 10) ∧
    barAt
        (update_ticker 13 (fun _ _ => Except.ok [⟨10, 2, 2, 2, 2, 7⟩])
          (fun _ _ => Except.ok [])
          (save_ohlcv 9 "AAA" [⟨10, 1, 1, 1, 1, 5⟩] "1D" emptyStore)
          "AAA").2 "AAA" 10 "1D" =
      barAt (save_ohlcv 9 "AAA" [⟨10, 1, 1, 1, 1, 5⟩] "1D" emptyStore)
        "AAA" 10 "1D" :=
  ⟨by decide, by decide,
   overlap_bars_discarded 13 (fun _ _ => Except.ok [⟨10, 2, 2, 2, 2, 7⟩])
    (fun _ _ => Except.ok [])
    (save_ohlcv 9 "AAA" [⟨10, 1, 1, 1, 1, 5⟩] "1D" emptyStore)
    "AAA" 10 10 "1D" (by decide) (by decide)⟩

/-- C3 counterexample: the freshness short-circuit compares `now` against
the last cached BAR date (`MAX(date)` in `ohlcv_data`), not against the
metadata `last_update` timestamp. In a store whose metadata was written at
`now` (days_since_last_update = 0 ≤ 1) but whose newest bar is 10 days
old, the claim says the updater skips the fetch; the code instead selects
the window `[last_bar_date - 5, now]` and fetches (outcome "Failed" here,
not "Already up-to-date"). -/
theorem freshness_ignores_last_update :
    ((metaFor (save_ohlcv 100 "AAA" [⟨90, 1, 1, 1, 1, 5⟩] "1D" emptyStore)
        "AAA" "1D").map MetaRow.last_update = some 100 ∧
      (100 : Int) - 100 ≤ 1) ∧
    selectWindow 100
        (get_last_cached_date
          (save_ohlcv 100 "AAA" [⟨90, 1, 1, 1, 1, 5⟩] "1D" emptyStore)
          "AAA") = some (85, 100) ∧
    update_ticker 100 (fun _ _ => Except.ok []) (fun _ _ => Except.ok [])
        (save_ohlcv 100 "AAA" [⟨90, 1, 1, 1, 1, 5⟩] "1D" emptyStore)
        "AAA" ≠
      ((none, "Already up-to-date"),
        save_ohlcv 100 "AAA" [⟨90, 1, 1, 1, 1, 5⟩] "1D" emptyStore) := by
  decide

/-- C3 (amended): the updater's window selection is keyed to the last
cached bar date, not to metadata `last_update`: with no cached bars it
requests the full window `[now - 365*5 days, now]`; with last cached bar
date `d` it skips the fetch ("Already up-to-date") when `now - d ≤ 1` day,
and otherwise requests exactly `[d - 5 days, now]`. -/
theorem window_selection (now : Int)
    (vn tc : Int → Int → Except String (List OBar)) (store : Store)
    (ticker : String) :
    (get_last_cached_date store ticker = none →
      selectWindow now (get_last_cached_date store ticker) =
        some (now - 365 * 5, now)) ∧
    (∀ d : Int, get_last_cached_date store ticker = some d →
      (now - d ≤ 1 →
        update_ticker now vn tc store ticker =
          ((none, "Already up-to-date"), store)) ∧
      (1 < now - d →
        selectWindow now (get_last_cached_date store ticker) =
          some (d - 5, now))) := by
  constructor
  · intro h
    rw [h]
    rfl
  · intro d hd
    constructor
    · intro hskip
      simp only [update_ticker, hd]
      simp [selectWindow, hskip]
    · intro hgt
      rw [hd]
      simp only [selectWindow]
      rw [if_neg (by omega)]

theorem window_selection_witness :
    (get_last_cached_date emptyStore "AAA" = none ∧
      selectWindow 10 (get_last_cached_date emptyStore "AAA") =
        some (10 - 365 * 5, 10)) ∧
    (get_last_cached_date
        (save_ohlcv 9 "AAA" [⟨8, 1, 1, 1, 1, 5⟩] "1D" emptyStore) "AAA" =
        some 8 ∧ (1 : Int) < 10 - 8 ∧
      selectWindow 10
          (get_last_cached_date
            (save_ohlcv 9 "AAA" [⟨8, 1, 1, 1, 1, 5⟩] "1D" emptyStore)
            "AAA") = some (3, 10)) ∧
    (get_last_cached_date
        (save_ohlcv 9 "AAA" [⟨10, 1, 1, 1, 1, 5⟩] "1D" emptyStore) "AAA" =
        some 10 ∧ (10 : Int) - 10 ≤ 1 ∧
      update_ticker 10 (fun _ _ => Except.ok []) (fun _ _ => Except.ok [])
          (save_ohlcv 9 "AAA" [⟨10, 1, 1, 1, 1, 5⟩] "1D" emptyStore)
          "AAA" =
        ((none, "Already up-to-date"),
          save_ohlcv 9 "AAA" [⟨10, 1, 1, 1, 1, 5⟩] "1D" emptyStore)) :=
  ⟨⟨by decide,
    (window_selection 10 (fun _ _ => Except.ok [])
      (fun _ _ => Except.ok []) emptyStore "AAA").1 (by decide)⟩,
   ⟨by decide, by decide,
    ((window_selection 10 (fun _ _ => Except.ok [])
      (fun _ _ => Except.ok [])
      (save_ohlcv 9 "AAA" [⟨8, 1, 1, 1, 1, 5⟩] "1D" emptyStore)
      "AAA").2 8 (by decide)).2 (by decide)⟩,
   ⟨by decide, by decide,
    ((window_selection 10 (fun _ _ => Except.ok [])
      (fun _ _ => Except.ok [])
      (save_ohlcv 9 "AAA" [⟨10, 1, 1, 1, 1, 5⟩] "1D" emptyStore)
      "AAA").2 10 (by decide)).1 (by decide)⟩⟩

theorem strict_ma_flags_witness :
    (analyze_single_symbol
        (Except.ok (List.replicate 20 (⟨1, 1⟩ : Bar))) 0 =
      SymbolResult.analyzed ⟨false, false, false, false⟩) ∧
    ((⟨false, false, false, false⟩ : IndicatorFlags).above_ma20 = true ↔
      20 ≤ (List.replicate 20 (⟨1, 1⟩ : Bar)).length ∧
        smaLast 20 ((List.replicate 20 (⟨1, 1⟩ : Bar)).map Bar.closeP) <
          ((List.replicate 20 (⟨1, 1⟩ : Bar)).getLastD ⟨0, 0⟩).closeP) := by
  have h : analyze_single_symbol
      (Except.ok (List.replicate 20 (⟨1, 1⟩ : Bar))) 0 =
      SymbolResult.analyzed ⟨false, false, false, false⟩ := by
    have hlast : (List.replicate 20 (⟨1, 1⟩ : Bar)).getLastD ⟨0, 0⟩ =
        (⟨1, 1⟩ : Bar) := rfl
    simp only [analyze_single_symbol, hlast]
    norm_num [List.map_replicate, maOpt, emaOpt, isAbove, emaBullish,
      smaLast, List.sum_replicate, nsmul_eq_mul]
  exact ⟨h, (strict_ma_flags _ 0 _ h).1⟩

end StockDashboard
